import Mathlib

/-!
Verification of the dual-mode persistence core of the Masjid Display backend
(`main.py`, `schemas.py`).  Python dictionaries keyed by strings are embedded
as association lists, Python strings as `List Char` (wrapped in `String` at
the boundaries), fallible operations as `Option`/`Except`, and the two
backend modes (MongoDB collection vs. local JSON file) as explicit state
values threaded through each endpoint function.
-/

namespace MasjidDisplay

/-! ### Association lists: the embedding of Python dicts keyed by strings -/

/-- `d.get(key)` on a Python dict embedded as an association list. -/
def lookupA {α : Type} : List (String × α) → String → Option α
  | [], _ => none
  | (k, v) :: rest, key => if k = key then some v else lookupA rest key

/-- `d[key] = v` on a Python dict: replace in place if present, else append
(Python dicts preserve insertion order and keep the position of updated keys). -/
def insertA {α : Type} : List (String × α) → String → α → List (String × α)
  | [], key, v => [(key, v)]
  | (k, w) :: rest, key, v =>
      if k = key then (k, v) :: rest else (k, w) :: insertA rest key v

/-! ### A stable descending sort, the embedding of Python's
`list.sort(key=..., reverse=True)` (Timsort is a stable sort; with
`reverse=True` it is extensionally the stable sort by descending key). -/

/-- Insert `x` before the first element whose key is `≤ key x`; elements kept
in front of `x` have a strictly larger key, so equal keys keep their original
relative order. -/
def insDesc {α K : Type} [LinearOrder K] (key : α → K) (x : α) : List α → List α
  | [] => [x]
  | y :: ys => if key y ≤ key x then x :: y :: ys else y :: insDesc key x ys

/-- Stable sort by descending key. -/
def sortDesc {α K : Type} [LinearOrder K] (key : α → K) (l : List α) : List α :=
  l.foldr (insDesc key) []

/-! ### Python string primitives, over `List Char` (Python `str` is a
sequence of characters; all inputs of this code are ASCII). -/

/-- Fuel-driven worker for `replaceAll`; every step consumes at least one
character, so fuel equal to the length of the list is always enough. -/
def replaceAllAux (p0 : Char) (ps : List Char) (r : List Char) :
    Nat → List Char → List Char
  | _, [] => []
  | 0, l => l
  | fuel + 1, c :: cs =>
      if (p0 :: ps).isPrefixOf (c :: cs) then
        r ++ replaceAllAux p0 ps r fuel (cs.drop ps.length)
      else
        c :: replaceAllAux p0 ps r fuel cs

/-- `str.replace(pat, rep)` for a non-empty pattern `p0 :: ps`: replace every
non-overlapping occurrence, scanning left to right. -/
def replaceAll (p0 : Char) (ps : List Char) (r : List Char) (l : List Char) : List Char :=
  replaceAllAux p0 ps r l.length l

/-- `str.strip()`: drop surrounding whitespace. -/
def pyStrip (s : List Char) : List Char :=
  ((s.dropWhile Char.isWhitespace).reverse.dropWhile Char.isWhitespace).reverse

/-- `str.lower()`. -/
def pyLower (s : List Char) : List Char := s.map Char.toLower

/-- Value of an all-digit numeral. -/
def digitsVal (ds : List Char) : Nat :=
  ds.foldl (fun acc c => acc * 10 + (c.toNat - '0'.toNat)) 0

/-- Python `int(s)` on the (already whitespace-free) strings flowing through
`_coerce_times`: an optional sign followed by one or more ASCII digits;
anything else raises `ValueError` (`none`). -/
def pyInt : List Char → Option Int
  | [] => none
  | c :: cs =>
      if c = '+' then
        if cs ≠ [] ∧ cs.all Char.isDigit then some (digitsVal cs : Int) else none
      else if c = '-' then
        if cs ≠ [] ∧ cs.all Char.isDigit then some (-(digitsVal cs : Int)) else none
      else
        if (c :: cs).all Char.isDigit then some (digitsVal (c :: cs) : Int) else none

/-- Python `f"{n:02d}"`: decimal digits zero-padded to width 2; for a negative
value the sign counts toward the width, so `-1` prints as `"-1"`. -/
def fmt02 (n : Int) : List Char :=
  if n < 0 then '-' :: Nat.toDigits 10 n.natAbs
  else
    let ds := Nat.toDigits 10 n.toNat
    if ds.length < 2 then '0' :: ds else ds

/-- `t.split(sep)` for a one-character separator: always returns at least one
part, and a separator at either end yields an empty part there. -/
def splitOnChar (sep : Char) : List Char → List (List Char)
  | [] => [[]]
  | c :: cs =>
      if c = sep then [] :: splitOnChar sep cs
      else
        match splitOnChar sep cs with
        | [] => [[c]]
        | p :: ps => (c :: p) :: ps

/-- Decidable model of the `YYYY-MM-DD` strings accepted by
`datetime.fromisoformat` / pydantic date parsing: four digit year, zero-padded
month `01`–`12` and day `01`–`31`. -/
def isValidDateStr (s : String) : Bool :=
  match s.data with
  | [y1, y2, y3, y4, h1, m1, m2, h2, d1, d2] =>
      y1.isDigit && y2.isDigit && y3.isDigit && y4.isDigit &&
      (h1 == '-') && (h2 == '-') &&
      m1.isDigit && m2.isDigit && d1.isDigit && d2.isDigit &&
      decide (1 ≤ digitsVal [m1, m2]) && decide (digitsVal [m1, m2] ≤ 12) &&
      decide (1 ≤ digitsVal [d1, d2]) && decide (digitsVal [d1, d2] ≤ 31)
  | _ => false

/-- The spec's invariant pattern for stored time fields, the regular
expression `[0-2][0-9]:[0-5][0-9]` anchored on both sides. -/
def matchesHHMM (s : String) : Bool :=
  match s.data with
  | [a, b, c, d, e] =>
      decide ('0' ≤ a) && decide (a ≤ '2') && b.isDigit && (c == ':') &&
      decide ('0' ≤ d) && decide (d ≤ '5') && e.isDigit
  | _ => false

/-- Models the guarded timestamp test in the fallback announcement filter:
`datetime.fromisoformat(s.replace("Z", "+00:00"))` later compared against a
naive `datetime.utcnow()`.  A parse failure raises, and so does comparing an
offset-aware value (any `+HH:MM` offset, including a replaced `Z`) against the
naive `now`; both raising paths are modeled as `none`.  A successful naive
parse is encoded as one ordinal so that `≤` agrees with chronological order. -/
def parseTs (s : String) : Option Nat :=
  let cs := replaceAll 'Z' [] ['+', '0', '0', ':', '0', '0'] s.data
  if cs.contains '+' then none
  else
    match cs with
    | y1 :: y2 :: y3 :: y4 :: hy1 :: mo1 :: mo2 :: hy2 :: d1 :: d2 :: rest =>
        if (y1.isDigit && y2.isDigit && y3.isDigit && y4.isDigit &&
            (hy1 == '-') && (hy2 == '-') && mo1.isDigit && mo2.isDigit &&
            d1.isDigit && d2.isDigit &&
            decide (1 ≤ digitsVal [mo1, mo2]) && decide (digitsVal [mo1, mo2] ≤ 12) &&
            decide (1 ≤ digitsVal [d1, d2]) && decide (digitsVal [d1, d2] ≤ 31)) then
          let base := (digitsVal [y1, y2, y3, y4] * 13 + digitsVal [mo1, mo2]) * 32 +
            digitsVal [d1, d2]
          match rest with
          | [] => some (base * 86400)
          | sep :: h1 :: h2 :: c1 :: mi1 :: mi2 :: rest2 =>
              if ((sep == 'T' || sep == ' ') && h1.isDigit && h2.isDigit && (c1 == ':') &&
                  mi1.isDigit && mi2.isDigit &&
                  decide (digitsVal [h1, h2] ≤ 23) && decide (digitsVal [mi1, mi2] ≤ 59)) then
                let hm := digitsVal [h1, h2] * 3600 + digitsVal [mi1, mi2] * 60
                match rest2 with
                | [] => some (base * 86400 + hm)
                | c2 :: s1 :: s2 :: [] =>
                    if ((c2 == ':') && s1.isDigit && s2.isDigit &&
                        decide (digitsVal [s1, s2] ≤ 59)) then
                      some (base * 86400 + hm + digitsVal [s1, s2])
                    else none
                | _ => none
              else none
          | _ => none
        else none
    | _ => none

/-! ### Time normalization: `_coerce_times` (main.py lines 339–361) -/

/-- The eleven recognized prayer-time keys (main.py lines 272–278). -/
def PRAYER_KEYS : List String :=
  ["fajr", "fajr_jamaat", "sunrise",
   "dhuhr", "dhuhr_jamaat",
   "asr", "asr_jamaat",
   "maghrib", "maghrib_jamaat",
   "isha", "isha_jamaat"]

/-- A parsed tabular/JSON row: string keys mapped to string values. -/
abbrev Row := List (String × String)

/-- The per-value normalization inside `_coerce_times`, after the falsy
check: strip and lowercase; replace `.` with `:` and remove spaces; if no
colon is present and the string is a bare 3–4 digit numeral, insert a colon
two characters from the end; then (only then) strip `am`/`pm`; finally split
on `:`, parse `int(parts[0])` and `int(parts[1][:2])`, and zero-pad both.
Any raise skips the field (`none`). -/
def coerceTimeL (v : List Char) : Option (List Char) :=
  let t0 := replaceAll ' ' [] [] (replaceAll '.' [] [':'] (pyLower (pyStrip v)))
  let t1 :=
    if ¬ t0.contains ':' ∧ t0 ≠ [] ∧ t0.all Char.isDigit ∧ 3 ≤ t0.length ∧ t0.length ≤ 4 then
      t0.take (t0.length - 2) ++ ':' :: t0.drop (t0.length - 2)
    else t0
  let t2 := replaceAll 'p' ['m'] [] (replaceAll 'a' ['m'] [] t1)
  if t2.contains ':' then
    match splitOnChar ':' t2 with
    | p0 :: p1 :: _ =>
        match pyInt p0, pyInt (p1.take 2) with
        | some hh, some mm => some (fmt02 hh ++ ':' :: fmt02 mm)
        | _, _ => none
    | _ => none
  else none

/-- `coerceTimeL` at the `String` boundary. -/
def coerceTime (s : String) : Option String :=
  (coerceTimeL s.data).map String.mk

/-- `_coerce_times` (main.py lines 339–361): for each prayer key whose row
value is present and truthy, add the normalized time under that key; keys
whose value fails to normalize are skipped.  Output keys follow
`PRAYER_KEYS` order, as Python inserts them in loop order. -/
def _coerce_times (record : Row) : Row :=
  PRAYER_KEYS.foldr
    (fun k acc =>
      match lookupA record k with
      | none => acc
      | some v =>
          if v = "" then acc
          else
            match coerceTime v with
            | none => acc
            | some t => (k, t) :: acc)
    []

/-! ### Salah times: data model and the `/api/salah` endpoints -/

/-- The pydantic `SalahTime` model (schemas.py lines 20–37): a validated date
plus eleven optional free-form time strings.  Pydantic parses the date to a
`datetime.date`; we carry its canonical `isoformat()` string. -/
structure SalahTime where
  date : String
  fajr : Option String := none
  sunrise : Option String := none
  dhuhr : Option String := none
  asr : Option String := none
  maghrib : Option String := none
  isha : Option String := none
  fajr_jamaat : Option String := none
  dhuhr_jamaat : Option String := none
  asr_jamaat : Option String := none
  maghrib_jamaat : Option String := none
  isha_jamaat : Option String := none
deriving DecidableEq

/-- A stored salah record: the shape of `item.model_dump()` with the date
serialized and `updated_at` stamped.  A field that is absent from the stored
dict is `none`. -/
structure SalahPayload where
  date : String
  fajr : Option String := none
  sunrise : Option String := none
  dhuhr : Option String := none
  asr : Option String := none
  maghrib : Option String := none
  isha : Option String := none
  fajr_jamaat : Option String := none
  dhuhr_jamaat : Option String := none
  asr_jamaat : Option String := none
  maghrib_jamaat : Option String := none
  isha_jamaat : Option String := none
  updated_at : Option String := none
deriving DecidableEq

/-- `payload = item.model_dump(); payload["date"] = item.date.isoformat();
payload["updated_at"] = datetime.utcnow().isoformat()` (main.py lines
134–137); the wall-clock string is the parameter `t`. -/
def toPayload (item : SalahTime) (t : String) : SalahPayload :=
  { date := item.date, fajr := item.fajr, sunrise := item.sunrise,
    dhuhr := item.dhuhr, asr := item.asr, maghrib := item.maghrib,
    isha := item.isha, fajr_jamaat := item.fajr_jamaat,
    dhuhr_jamaat := item.dhuhr_jamaat, asr_jamaat := item.asr_jamaat,
    maghrib_jamaat := item.maghrib_jamaat, isha_jamaat := item.isha_jamaat,
    updated_at := some t }

/-- The salah store: the fallback `data/salah.json` object / the `salahtime`
collection, keyed by date string. -/
abbrev SalahStore := List (String × SalahPayload)

/-- Response of `POST /api/salah` in fallback mode (main.py line 144). -/
structure UpsertRespFb where
  status : String
  date : String
  fallback : Bool
deriving DecidableEq

/-- JSON keys of an `UpsertRespFb`, in emission order. -/
def UpsertRespFb.keys (_ : UpsertRespFb) : List String := ["status", "date", "fallback"]

/-- Response of `POST /api/salah` in database mode (main.py line 151). -/
structure UpsertRespDb where
  status : String
  date : String
deriving DecidableEq

/-- JSON keys of an `UpsertRespDb`, in emission order. -/
def UpsertRespDb.keys (_ : UpsertRespDb) : List String := ["status", "date"]

/-- `upsert_salah` (main.py lines 132–151), fallback branch: load the JSON
store, set the full payload under its date key, write back atomically. -/
def upsert_salah_fb (store : SalahStore) (item : SalahTime) (t : String) :
    SalahStore × UpsertRespFb :=
  let payload := toPayload item t
  (insertA store payload.date payload,
   { status := "ok", date := payload.date, fallback := true })

/-- `upsert_salah`, database branch:
`update_one({"date": d}, {"$set": payload}, upsert=True)`.  `$set` with the
full payload on documents carrying exactly these fields is replace-or-insert
keyed by date. -/
def upsert_salah_db (coll : SalahStore) (item : SalahTime) (t : String) :
    SalahStore × UpsertRespDb :=
  let payload := toPayload item t
  (insertA coll payload.date payload, { status := "ok", date := payload.date })

/-- Response union of `GET /api/salah`: a stored record, the `{"date": d}`
stub for a miss, or (with no date given) the recent-records list. -/
inductive SalahResp where
  | found (p : SalahPayload)
  | stub (d : String)
  | recent (l : List SalahPayload)
deriving DecidableEq

/-- Fallback list-recent (main.py lines 120–122): sort the stored dates
descending, take 30, return their records.  Dict keys are unique, so sorting
the entries by key is sorting the keys and looking each one up. -/
def listRecentFb (store : SalahStore) : List SalahPayload :=
  ((sortDesc (fun kv => kv.1) store).take 30).map (fun kv => kv.2)

/-- Database list-recent (main.py lines 125–127): all documents sorted by
their `date` field descending, limit 30. -/
def listRecentDb (coll : SalahStore) : List SalahPayload :=
  (sortDesc (fun p => p.date) (coll.map (fun kv => kv.2))).take 30

/-- `get_salah_by_date` (main.py lines 114–129), fallback branch. -/
def get_salah_by_date_fb (store : SalahStore) (d : Option String) : SalahResp :=
  match d with
  | none => .recent (listRecentFb store)
  | some d =>
      match lookupA store d with
      | some p => .found p
      | none => .stub d

/-- `get_salah_by_date`, database branch: `find_one({"date": d}, {"_id": 0})`
against the collection keyed by date. -/
def get_salah_by_date_db (coll : SalahStore) (d : Option String) : SalahResp :=
  match d with
  | none => .recent (listRecentDb coll)
  | some d =>
      match lookupA coll d with
      | some p => .found p
      | none => .stub d

/-- `get_today_salah` (main.py lines 103–111), fallback branch; the wall-clock
date is the parameter `today`. -/
def get_today_salah_fb (store : SalahStore) (today : String) : SalahResp :=
  match lookupA store today with
  | some p => .found p
  | none => .stub today

/-- `get_today_salah`, database branch. -/
def get_today_salah_db (coll : SalahStore) (today : String) : SalahResp :=
  match lookupA coll today with
  | some p => .found p
  | none => .stub today

/-! ### Announcements: data model and the `/api/announcements` endpoints -/

/-- A stored announcement dict as the fallback reader sees it
(`data/announcements.json` holds a list of these; the `announcement`
collection holds the same fields, `_id` projected away).  Each field the code
accesses with `.get` is optional here. -/
structure AnnRec where
  message : String
  start_at : Option String := none
  end_at : Option String := none
  priority : Option Int := none
  active : Option Bool := none
  created_at : Option String := none
deriving DecidableEq

/-- JSON keys of a stored announcement, in `model_dump()` field order with
`created_at` appended (main.py lines 196–197). -/
def annKeys (_ : AnnRec) : List String :=
  ["message", "start_at", "end_at", "priority", "active", "created_at"]

/-- The `try` block of the fallback filter (main.py lines 168–170): compute
`start_ok` then `end_ok`; a raise anywhere inside (parse failure, or an
offset-aware timestamp compared with the naive `now`) aborts the whole block
(`none`). -/
def startEndOk (now : Nat) (it : AnnRec) : Option Bool := do
  let sOk ←
    match it.start_at with
    | none => some true
    | some s => (parseTs s).map (fun v => decide (v ≤ now))
  let eOk ←
    match it.end_at with
    | none => some true
    | some s => (parseTs s).map (fun v => decide (now ≤ v))
  some (sOk && eOk)

/-- The fallback visibility test (main.py lines 163–175): skip records whose
`active` (default `True`) is falsy; on any exception in the window checks both
checks are forced to `True` and the record passes. -/
def annCondFb (now : Nat) (it : AnnRec) : Bool :=
  if it.active.getD true = false then false
  else
    match startEndOk now it with
    | some b => b
    | none => true

/-- The database filter document (main.py lines 180–186) read declaratively
over a record: `active == True`, and each window bound absent or satisfied.
A stored value the engine cannot compare with a datetime (modeled as a parse
failure) never satisfies `$lte`/`$gte`. -/
def annCondDb (now : Nat) (it : AnnRec) : Bool :=
  (it.active == some true) &&
  (match it.start_at with
   | none => true
   | some s => match parseTs s with
     | some v => decide (v ≤ now)
     | none => false) &&
  (match it.end_at with
   | none => true
   | some s => match parseTs s with
     | some v => decide (now ≤ v)
     | none => false)

/-- The sort key `int(x.get("priority", 1))` (main.py line 177). -/
def annPrio (it : AnnRec) : Int := it.priority.getD 1

/-- `get_active_announcements` (main.py lines 156–188), fallback branch: the
filtering loop followed by `result.sort(key=..., reverse=True)`. -/
def get_active_announcements_fb (items : List AnnRec) (now : Nat) : List AnnRec :=
  sortDesc annPrio (items.filter (annCondFb now))

/-- `get_active_announcements`, database branch:
`find(filt, ...).sort("priority", -1)` over the collection in storage order;
the engine sort is modeled as the stable descending sort. -/
def get_active_announcements_db (items : List AnnRec) (now : Nat) : List AnnRec :=
  sortDesc annPrio (items.filter (annCondDb now))

/-- A stored announcement whose fields are all present and whose window
bounds, when present, parse as naive timestamps — the shape every record
written through the app's own endpoints has. -/
def annWF (it : AnnRec) : Bool :=
  it.active.isSome && it.priority.isSome &&
  (match it.start_at with
   | none => true
   | some s => (parseTs s).isSome) &&
  (match it.end_at with
   | none => true
   | some s => (parseTs s).isSome)

/-- The pydantic `Announcement` model (schemas.py lines 39–45): validated
fields; timestamps carried as their serialized strings. -/
structure Announcement where
  message : String
  start_at : Option String := none
  end_at : Option String := none
  priority : Int := 1
  active : Bool := true
deriving DecidableEq

/-- `item.model_dump()` plus the stamped `created_at` (main.py lines
196–197). -/
def annToRec (item : Announcement) (t : String) : AnnRec :=
  { message := item.message, start_at := item.start_at, end_at := item.end_at,
    priority := some item.priority, active := some item.active,
    created_at := some t }

/-- Response of `POST /api/announcements` in fallback mode (main.py line
200); `id` is the list length after the append. -/
structure CreateRespFb where
  status : String
  id : Int
  fallback : Bool
deriving DecidableEq

/-- JSON keys of a `CreateRespFb`, in emission order. -/
def CreateRespFb.keys (_ : CreateRespFb) : List String := ["status", "id", "fallback"]

/-- Response of `POST /api/announcements` in database mode (main.py line
202). -/
structure CreateRespDb where
  status : String
  id : String
deriving DecidableEq

/-- JSON keys of a `CreateRespDb`, in emission order. -/
def CreateRespDb.keys (_ : CreateRespDb) : List String := ["status", "id"]

/-- The message of the `TypeError` that `json.dump` raises on a `datetime`
value. -/
def jsonDumpTypeErrorMsg : String := "Object of type datetime is not JSON serializable"

/-- `create_announcement` (main.py lines 191–202), fallback branch: append
`item.model_dump()` plus a stamped `created_at` to the JSON list, write the
list back, and answer with the 1-based count.  `model_dump()` keeps a present
`start_at`/`end_at` as a `datetime` object, which `json.dump` cannot
serialize: `_write_json` then raises `TypeError` out of the endpoint (an
unhandled 500), leaving the store unchanged since the atomic rename never
runs.  Only an announcement with both bounds absent reaches the success
response. -/
def create_announcement_fb (items : List AnnRec) (item : Announcement) (t : String) :
    Except String (List AnnRec × CreateRespFb) :=
  if item.start_at.isSome ∨ item.end_at.isSome then
    .error jsonDumpTypeErrorMsg
  else
    .ok (items ++ [annToRec item t],
      { status := "ok", id := (items.length : Int) + 1, fallback := true })

/-- `create_announcement`, database branch.  Modelled from the spec: the
`create_document` collaborator (database.py, not under src/) inserts the
record with a stamped `created_at` and returns the database-assigned
identifier, supplied here by the collaborator as `newId`. -/
def create_announcement_db (items : List AnnRec) (item : Announcement) (t : String)
    (newId : String) : List AnnRec × CreateRespDb :=
  (items ++ [annToRec item t], { status := "ok", id := newId })

/-! ### Assets: `/api/assets` -/

/-- A fallback asset listing entry (main.py lines 224–228). -/
structure AssetItemFb where
  filename : String
  content_type : String
  path : String
deriving DecidableEq

/-- JSON keys of a fallback asset entry, in emission order. -/
def AssetItemFb.keys (_ : AssetItemFb) : List String :=
  ["filename", "content_type", "path"]

/-- An asset document in the database.  Modelled from the spec: asset
documents are written by the `create_document` collaborator (database.py, not
under src/), which per the spec stores the `Asset` fields plus `created_at`. -/
structure AssetDocDb where
  filename : String
  content_type : String
  path : String
  created_at : String
deriving DecidableEq

/-- JSON keys of a database asset document (`_id` projected away). -/
def AssetDocDb.keys (_ : AssetDocDb) : List String :=
  ["filename", "content_type", "path", "created_at"]

/-- `mimetypes.guess_type` restricted to the extensions this deployment
serves; unknown extensions yield `none` and the code substitutes
`application/octet-stream`. -/
def guessType (f : String) : Option String :=
  if f.endsWith ".png" then some "image/png"
  else if f.endsWith ".jpg" then some "image/jpeg"
  else if f.endsWith ".csv" then some "text/csv"
  else if f.endsWith ".json" then some "application/json"
  else if f.endsWith ".pdf" then some "application/pdf"
  else none

/-- `list_assets` (main.py lines 207–231), fallback branch: the upload
directory's filenames sorted descending, truncated to `limit`, each mapped to
a metadata stub. -/
def list_assets_fb (files : List String) (limit : Nat) : List AssetItemFb :=
  ((sortDesc (fun f => f) files).take limit).map
    (fun f =>
      { filename := f,
        content_type := (guessType f).getD "application/octet-stream",
        path := "/uploads/" ++ f })

/-- `list_assets`, database branch: asset documents sorted by `created_at`
descending, limit applied. -/
def list_assets_db (docs : List AssetDocDb) (limit : Nat) : List AssetDocDb :=
  (sortDesc (fun d => d.created_at) docs).take limit

/-! ### Row selection and the AI sync pipeline (`/api/sync/ai`) -/

/-- `d = r.get('date') or r.get('day')` (Python `or`: an empty string is
falsy and falls through to `day`). -/
def rowDateOrDay (r : Row) : Option String :=
  match lookupA r "date" with
  | some s => if s = "" then lookupA r "day" else some s
  | none => lookupA r "day"

/-- The per-row date test of the CSV/XLSX branches (main.py lines 394–401):
a truthy `date`/`day` value is stripped and truncated to 10 characters before
the comparison, a falsy one is compared as is. -/
def rowMatches (target : String) (r : Row) : Bool :=
  match rowDateOrDay r with
  | none => false
  | some s =>
      if s = "" then s == target
      else String.mk ((pyStrip s.data).take 10) == target

/-- The CSV/XLSX matching loop (main.py lines 393–401): first row whose
processed date equals the target. -/
def findMatchRow (target : String) : List Row → Option Row
  | [] => none
  | r :: rest => if rowMatches target r then some r else findMatchRow target rest

/-- Row selection for the CSV branch (main.py lines 391–404): first matching
row, else — when any rows exist — the first row. -/
def pickRowCsv (rows : List Row) (target : String) : Option Row :=
  match findMatchRow target rows with
  | some m => some m
  | none => rows.head?

/-- Row selection for the XLSX branch (main.py lines 419–429); the code is
the same loop as the CSV branch. -/
def pickRowXlsx (rows : List Row) (target : String) : Option Row :=
  match findMatchRow target rows with
  | some m => some m
  | none => rows.head?

/-- `str(r.get('date'))` of the JSON-list branch: a missing key stringifies
to `"None"`. -/
def strDateField (r : Row) : String :=
  match lookupA r "date" with
  | some s => s
  | none => "None"

/-- The JSON-list matching loop (main.py lines 413–417): first row whose
stringified `date` field equals the target exactly; no truncation, no `day`
key, and no first-row fallback. -/
def findJsonRow (target : String) : List Row → Option Row
  | [] => none
  | r :: rest => if strDateField r = target then some r else findJsonRow target rest

/-- The claim-level selector for tabular rows: first row whose `date`/`day`
field, stripped and truncated to its first 10 characters, equals the target;
if none matches but rows exist, the first row; with zero rows, nothing. -/
def specSelect (rows : List Row) (target : String) : Option Row :=
  match rows.find? (fun r =>
    match rowDateOrDay r with
    | none => false
    | some s => String.mk ((pyStrip s.data).take 10) == target) with
  | some m => some m
  | none => rows.head?

/-- The truthiness test `any(extracted.get(k) for k in PRAYER_KEYS)`
(main.py line 439). -/
def hasAnyTimes (extracted : Row) : Bool :=
  PRAYER_KEYS.any (fun k =>
    match lookupA extracted k with
    | some s => s ≠ ""
    | none => false)

/-- `extracted = {"date": target}; extracted.update(_coerce_times(match))`
(main.py lines 387, 405–406). -/
def extractFromRow (target : String) (r : Row) : Row :=
  ("date", target) :: _coerce_times r

/-- The commit payload `{**{k: extracted[k] for k in PRAYER_KEYS if
extracted.get(k)}, "date": target}` (main.py lines 445–448). -/
def commitPayload (extracted : Row) (target : String) : Row :=
  (PRAYER_KEYS.filterMap (fun k =>
    match lookupA extracted k with
    | some s => if s = "" then none else some (k, s)
    | none => none)) ++ [("date", target)]

/-- Overwrite one payload entry into a stored record; the payload keys are
the prayer keys plus `date`, which are exactly the fields of the record. -/
def applyRowField (p : SalahPayload) (kv : String × String) : SalahPayload :=
  if kv.1 = "date" then { p with date := kv.2 }
  else if kv.1 = "fajr" then { p with fajr := some kv.2 }
  else if kv.1 = "fajr_jamaat" then { p with fajr_jamaat := some kv.2 }
  else if kv.1 = "sunrise" then { p with sunrise := some kv.2 }
  else if kv.1 = "dhuhr" then { p with dhuhr := some kv.2 }
  else if kv.1 = "dhuhr_jamaat" then { p with dhuhr_jamaat := some kv.2 }
  else if kv.1 = "asr" then { p with asr := some kv.2 }
  else if kv.1 = "asr_jamaat" then { p with asr_jamaat := some kv.2 }
  else if kv.1 = "maghrib" then { p with maghrib := some kv.2 }
  else if kv.1 = "maghrib_jamaat" then { p with maghrib_jamaat := some kv.2 }
  else if kv.1 = "isha" then { p with isha := some kv.2 }
  else if kv.1 = "isha_jamaat" then { p with isha_jamaat := some kv.2 }
  else p

/-- Python `existing.update(payload)`: merge, later keys overwriting. -/
def mergeRow (base : SalahPayload) (p : Row) : SalahPayload :=
  p.foldl applyRowField base

/-- The record a dict starts from when no record exists for the date
(`store.get(target_date, {})` with an empty dict). -/
def emptySalah : SalahPayload := { date := "" }

/-- The fallback commit of `ai_sync` (main.py lines 450–456): read-modify-
write of the record for the target date, merging only the extracted fields
and restamping `updated_at`. -/
def ai_sync_commit_fb (store : SalahStore) (target : String) (payload : Row)
    (t : String) : SalahStore :=
  let existing := (lookupA store target).getD emptySalah
  let merged := { mergeRow existing payload with updated_at := some t }
  insertA store target merged

/-- The database commit of `ai_sync` (main.py lines 458–462):
`update_one({"date": target}, {"$set": {**payload, "updated_at": t}},
upsert=True)` — a partial `$set` merges into the existing document, or seeds
a fresh one from the filter plus the set fields. -/
def ai_sync_commit_db (coll : SalahStore) (target : String) (payload : Row)
    (t : String) : SalahStore :=
  let existing := (lookupA coll target).getD emptySalah
  let merged := { mergeRow existing payload with updated_at := some t }
  insertA coll target merged

/-- The response body of a successful sync (main.py lines 464–469). -/
structure SyncResp where
  status : String
  source : String
  committed : Bool
  data : Row
deriving DecidableEq

/-- `{k: extracted.get(k) for k in ["date"] + PRAYER_KEYS if extracted.get(k)
or k == "date"}` (main.py line 468). -/
def syncRespData (extracted : Row) : Row :=
  ("date" :: PRAYER_KEYS).filterMap (fun k =>
    match lookupA extracted k with
    | some s => if s = "" ∧ k ≠ "date" then none else some (k, s)
    -- `extracted` always carries "date" (see `extractFromRow`), so this
    -- branch of the comprehension is never taken for the date key
    | none => if k = "date" then some (k, "") else none)

/-- The rejection detail of the "nothing extractable" condition (main.py
line 441, HTTP 422). -/
def nothingExtractableMsg : String :=
  "Could not extract any times from the latest upload. Ensure CSV/JSON/XLSX has columns like fajr, fajr_jamaat, ..."

/-- The tail of `ai_sync` after parsing and row matching (main.py lines
439–469), fallback mode: reject when nothing was extracted (the store is
left untouched even with `commit=True`); otherwise commit if requested and
report. -/
def ai_sync_tail_fb (src : String) (extracted : Row) (target : String)
    (commit : Bool) (store : SalahStore) (t : String) :
    SalahStore × Except String SyncResp :=
  if ¬ hasAnyTimes extracted then (store, .error nothingExtractableMsg)
  else
    let store2 :=
      if commit then ai_sync_commit_fb store target (commitPayload extracted target) t
      else store
    (store2,
     .ok { status := "ok", source := src, committed := commit,
           data := syncRespData extracted })

/-- The tail of `ai_sync`, database mode. -/
def ai_sync_tail_db (src : String) (extracted : Row) (target : String)
    (commit : Bool) (coll : SalahStore) (t : String) :
    SalahStore × Except String SyncResp :=
  if ¬ hasAnyTimes extracted then (coll, .error nothingExtractableMsg)
  else
    let coll2 :=
      if commit then ai_sync_commit_db coll target (commitPayload extracted target) t
      else coll
    (coll2,
     .ok { status := "ok", source := src, committed := commit,
           data := syncRespData extracted })

/-! ### FallbackStore: `_write_json` (main.py lines 48–52) -/

/-- The two filesystem cells `_write_json` touches: the destination path and
its temporary sibling `path + ".tmp"`. -/
structure FS where
  dest : Option String
  tmp : Option String
deriving DecidableEq

/-- The observable intermediate points of `_write_json`: the temp file has
been opened (truncated), some prefix of the serialized document has been
flushed, or the atomic `os.replace` has run.  A crash mid-write stops the
trace at one of the non-`done` steps. -/
inductive WriteStep where
  | start
  | writing (n : Nat)
  | done
deriving DecidableEq

/-- The filesystem as a reader (or a post-crash restart) observes it at each
step of `_write_json(path, data)`; `content` is the serialized document.
`os.replace` is the filesystem's atomic rename, a single step. -/
def writeStateAt (fs : FS) (content : String) : WriteStep → FS
  | .start => { fs with tmp := some "" }
  | .writing n => { fs with tmp := some (String.mk (content.data.take n)) }
  | .done => { dest := some content, tmp := none }

/-- `_write_json` itself: the state after the full sequence. -/
def _write_json (fs : FS) (content : String) : FS :=
  writeStateAt fs content .done

/-- What a concurrent `_read_json(path)` sees: the destination cell. -/
def readDest (fs : FS) : Option String := fs.dest

/-! ### CSV delimiter sniffing (main.py lines 296–308, 434–437) -/

/-- Models `csv.Sniffer().sniff(sample)`: infer the delimiter from the
sample, raising `csv.Error` (`Except.error`) when none can be determined —
stdlib behavior for samples without a recognizable delimiter, here modeled
as the absence of every candidate delimiter character. -/
def sniffDelim (sample : List Char) : Except String Char :=
  match sample.find? (fun c => c = ',' ∨ c = '\t' ∨ c = ';' ∨ c = ':') with
  | some c => .ok c
  | none => .error "Could not determine delimiter"

/-- `dialect = sniffer.sniff(sample) if sample else csv.excel` (main.py line
302): the comma-delimited default applies only to an empty sample; a raise
from `sniff` propagates. -/
def chooseDialect (sample : List Char) : Except String Char :=
  if sample = [] then .ok ',' else sniffDelim sample

/-- The dialect decision of `_parse_csv` on a file's content:
`sample = f.read(2048)` then the guarded sniff. -/
def parseCsvDialect (content : String) : Except String Char :=
  chooseDialect (content.data.take 2048)

/-- How `ai_sync` surfaces a `_parse_csv` raise (main.py lines 436–437): the
HTTP 500 condition with the truncated cause. -/
def ai_sync_csv_dialect (content : String) : Except String Char :=
  match parseCsvDialect content with
  | .ok c => .ok c
  | .error e => .error ("Failed to parse source file: " ++ e)

/-! ### Response shapes for the dual-mode consistency comparison -/

/-- JSON keys of a stored salah record: `model_dump()` field order with
`updated_at` appended.  Optional fields serialize as null; corresponding
fallback and database records carry the same key set, which is all the
cross-mode shape comparison reads. -/
def salahKeys (_ : SalahPayload) : List String :=
  ["date", "fajr", "sunrise", "dhuhr", "asr", "maghrib", "isha",
   "fajr_jamaat", "dhuhr_jamaat", "asr_jamaat", "maghrib_jamaat",
   "isha_jamaat", "updated_at"]

/-- The shape of a persistence response: the key list of a single JSON
object, or the per-element key lists of a JSON list. -/
inductive KeysShape where
  | one (ks : List String)
  | many (kss : List (List String))
deriving DecidableEq

/-- Shape of a `GET /api/salah` / `GET /api/salah/today` response. -/
def salahRespShape : SalahResp → KeysShape
  | .found p => .one (salahKeys p)
  | .stub _ => .one ["date"]
  | .recent l => .many (l.map salahKeys)

/-- The salah record of the write-shape counterexample. -/
def cexSalah : SalahTime := { date := "2024-03-01" }

/-- The announcement of the write-shape counterexample. -/
def cexAnn : Announcement := { message := "hello" }

/-- The ten ASCII digit characters, as an explicit enumeration. -/
def DigitChar (c : Char) : Prop :=
  c ∈ (['0', '1', '2', '3', '4', '5', '6', '7', '8', '9'] : List Char)

instance (c : Char) : Decidable (DigitChar c) := by
  unfold DigitChar
  infer_instance

/-! ### Concrete sample data used by witnesses and counterexamples -/

/-- A concrete salah record for the round-trip witness. -/
def sampleSalah : SalahTime :=
  { date := "2024-03-01", fajr := some "06:15", dhuhr := some "12:30" }

/-- A record whose fajr field is not a time at all. -/
def badSalah : SalahTime := { date := "2024-03-01", fajr := some "banana" }

/-- A one-row parsed upload whose date does not match the target. -/
def jsonRowsEx : List Row := [[("date", "2024-03-02"), ("fajr", "06:15")]]

/-- An active announcement with an unparseable `start_at`. -/
def ghostAnn : AnnRec :=
  { message := "m", start_at := some "soon", priority := some 3,
    active := some true }

/-- An active announcement whose `start_at` parses (a future instant at
evaluation time 0) but whose `end_at` does not. -/
def ghostAnn2 : AnnRec :=
  { message := "n", start_at := some "2024-03-01T10:00:00",
    end_at := some "whenever", priority := some 2, active := some true }

/-- An announcement carrying a time bound, for the serialization-failure
conjunct of the shape witness. -/
def windowedAnn : Announcement :=
  { message := "iftar", end_at := some "2024-04-01T00:00:00" }

/-- Three concrete announcements: an inactive high-priority one and two
active ones sharing a priority. -/
def annA : AnnRec := { message := "a", priority := some 3, active := some true }

/-- Second active announcement of the witness store. -/
def annB : AnnRec := { message := "b", priority := some 3, active := some true }

/-- The inactive announcement of the witness store. -/
def annC : AnnRec := { message := "c", priority := some 5, active := some false }

/-! ### Helper lemmas and claim theorems -/

theorem lookupA_insertA_self {α : Type} (l : List (String × α)) (k : String) (v : α) :
    lookupA (insertA l k v) k = some v := by
  induction l with
  | nil => simp [insertA, lookupA]
  | cons hd tl ih =>
      obtain ⟨k0, v0⟩ := hd
      by_cases h : k0 = k
      · simp [insertA, lookupA, h]
      · simp [insertA, lookupA, h, ih]

theorem lookupA_insertA_ne {α : Type} (l : List (String × α)) (k k1 : String) (v : α)
    (h : k1 ≠ k) : lookupA (insertA l k v) k1 = lookupA l k1 := by
  have h' : ¬ (k = k1) := fun hk => h hk.symm
  induction l with
  | nil => simp [insertA, lookupA, h']
  | cons hd tl ih =>
      obtain ⟨k0, v0⟩ := hd
      by_cases h0 : k0 = k
      · subst h0
        simp [insertA, lookupA, h']
      · simp only [insertA, if_neg h0, lookupA]
        by_cases h1 : k0 = k1
        · simp [h1]
        · simp [h1, ih]

theorem mem_insDesc {α K : Type} [LinearOrder K] (key : α → K) (x a : α) (l : List α) :
    a ∈ insDesc key x l ↔ a = x ∨ a ∈ l := by
  induction l with
  | nil => simp [insDesc]
  | cons y ys ih =>
      by_cases h : key y ≤ key x
      · simp [insDesc, h]
      · simp [insDesc, h, ih]
        tauto

theorem mem_sortDesc {α K : Type} [LinearOrder K] (key : α → K) (a : α) (l : List α) :
    a ∈ sortDesc key l ↔ a ∈ l := by
  induction l with
  | nil => simp [sortDesc]
  | cons y ys ih =>
      simp only [sortDesc, List.foldr] at ih ⊢
      rw [mem_insDesc]
      simp [ih]

theorem length_insDesc {α K : Type} [LinearOrder K] (key : α → K) (x : α) (l : List α) :
    (insDesc key x l).length = l.length + 1 := by
  induction l with
  | nil => simp [insDesc]
  | cons y ys ih =>
      by_cases h : key y ≤ key x
      · simp [insDesc, h]
      · simp [insDesc, h, ih]

theorem length_sortDesc {α K : Type} [LinearOrder K] (key : α → K) (l : List α) :
    (sortDesc key l).length = l.length := by
  induction l with
  | nil => rfl
  | cons y ys ih =>
      simp only [sortDesc, List.foldr] at ih ⊢
      rw [length_insDesc, ih, List.length_cons]

theorem pairwise_insDesc {α K : Type} [LinearOrder K] (key : α → K) (x : α) (l : List α)
    (h : l.Pairwise (fun a b => key b ≤ key a)) :
    (insDesc key x l).Pairwise (fun a b => key b ≤ key a) := by
  induction l with
  | nil => simp [insDesc]
  | cons y ys ih =>
      rcases List.pairwise_cons.1 h with ⟨hy, hys⟩
      by_cases hk : key y ≤ key x
      · simp only [insDesc, if_pos hk]
        refine List.pairwise_cons.2 ⟨?_, h⟩
        intro z hz
        rcases List.mem_cons.1 hz with rfl | hz'
        · exact hk
        · exact le_trans (hy z hz') hk
      · simp only [insDesc, if_neg hk]
        refine List.pairwise_cons.2 ⟨?_, ih hys⟩
        intro z hz
        rcases (mem_insDesc key x z ys).1 hz with rfl | hz'
        · exact le_of_lt (lt_of_not_le hk)
        · exact hy z hz'

theorem sorted_sortDesc {α K : Type} [LinearOrder K] (key : α → K) (l : List α) :
    (sortDesc key l).Pairwise (fun a b => key b ≤ key a) := by
  induction l with
  | nil => simp [sortDesc]
  | cons y ys ih => exact pairwise_insDesc key y _ ih

theorem filter_insDesc {α K : Type} [LinearOrder K] (key : α → K) (x : α) (l : List α)
    (p : K) :
    (insDesc key x l).filter (fun z => key z = p) =
      if key x = p then x :: l.filter (fun z => key z = p)
      else l.filter (fun z => key z = p) := by
  induction l with
  | nil =>
      by_cases h : key x = p <;> simp [insDesc, List.filter, h]
  | cons y ys ih =>
      by_cases hk : key y ≤ key x
      · simp only [insDesc, if_pos hk]
        by_cases h : key x = p <;> simp [List.filter_cons, h]
      · have hlt : key x < key y := lt_of_not_le hk
        simp only [insDesc, if_neg hk]
        by_cases hy : key y = p
        · have hx : ¬ (key x = p) := by
            intro he
            rw [he, ← hy] at hlt
            exact lt_irrefl _ hlt
          simp [List.filter_cons, hy, hx, ih]
        · by_cases h : key x = p <;> simp [List.filter_cons, hy, h, ih]

/-- Stability: for every key value `p`, the elements of key `p` appear in the
sorted output in exactly their original order. -/
theorem filter_sortDesc {α K : Type} [LinearOrder K] (key : α → K) (l : List α) (p : K) :
    (sortDesc key l).filter (fun z => key z = p) = l.filter (fun z => key z = p) := by
  induction l with
  | nil => simp [sortDesc]
  | cons y ys ih =>
      simp only [sortDesc, List.foldr] at ih ⊢
      rw [filter_insDesc]
      by_cases h : key y = p <;> simp [List.filter, h, ih]

/-! ### C2: upsert / get-by-date round trip -/

/-- C2: for every valid date string and salah record for it, get-by-date
immediately after upserting that record returns a record whose fields equal
the upserted ones, in both the fallback and the database mode. -/
theorem upsert_get_round_trip (store coll : SalahStore) (item : SalahTime)
    (t : String) (h : isValidDateStr item.date = true) :
    get_salah_by_date_fb (upsert_salah_fb store item t).1 (some item.date) =
      .found (toPayload item t) ∧
    get_salah_by_date_db (upsert_salah_db coll item t).1 (some item.date) =
      .found (toPayload item t) := by
  have hfb : lookupA (upsert_salah_fb store item t).1 item.date =
      some (toPayload item t) := lookupA_insertA_self store item.date (toPayload item t)
  have hdb : lookupA (upsert_salah_db coll item t).1 item.date =
      some (toPayload item t) := lookupA_insertA_self coll item.date (toPayload item t)
  constructor
  · simp [get_salah_by_date_fb, hfb]
  · simp [get_salah_by_date_db, hdb]

/-- Witness for `upsert_get_round_trip` at a concrete record and date. -/
theorem upsert_get_round_trip_witness :
    isValidDateStr sampleSalah.date = true ∧
    (get_salah_by_date_fb (upsert_salah_fb [] sampleSalah "2024-03-01T09:00:00").1
        (some sampleSalah.date) = .found (toPayload sampleSalah "2024-03-01T09:00:00") ∧
     get_salah_by_date_db (upsert_salah_db [] sampleSalah "2024-03-01T09:00:00").1
        (some sampleSalah.date) = .found (toPayload sampleSalah "2024-03-01T09:00:00")) :=
  ⟨by decide,
   upsert_get_round_trip [] [] sampleSalah "2024-03-01T09:00:00" (by decide)⟩

/-! ### C3: the HH:MM invariant on stored time fields -/

/-- C3 counterexample: upserting a record with `fajr = "banana"` stores
"banana" verbatim, and "banana" does not match `[0-2][0-9]:[0-5][0-9]`, so
the claimed invariant is not preserved by the upsert write path. -/
theorem upsert_violates_hhmm_invariant :
    lookupA (upsert_salah_fb [] badSalah "2024-03-01T09:00:00").1 "2024-03-01" =
      some (toPayload badSalah "2024-03-01T09:00:00") ∧
    (toPayload badSalah "2024-03-01T09:00:00").fajr = some "banana" ∧
    matchesHHMM "banana" = false := by
  exact ⟨by decide, rfl, by decide⟩

/-- C3 (amended): the write paths enforce no time-format invariant — the
upsert endpoint stores every supplied time field verbatim in both modes, and
the sync normalizer zero-pads without range-checking, so even its output can
fall outside `[0-2][0-9]:[0-5][0-9]` (for example `"9999" ↦ "99:99"`). -/
theorem upsert_stores_times_verbatim :
    (∀ (store coll : SalahStore) (item : SalahTime) (t : String),
      lookupA (upsert_salah_fb store item t).1 item.date = some (toPayload item t) ∧
      lookupA (upsert_salah_db coll item t).1 item.date = some (toPayload item t) ∧
      (toPayload item t).fajr = item.fajr ∧
      (toPayload item t).sunrise = item.sunrise ∧
      (toPayload item t).dhuhr = item.dhuhr ∧
      (toPayload item t).asr = item.asr ∧
      (toPayload item t).maghrib = item.maghrib ∧
      (toPayload item t).isha = item.isha ∧
      (toPayload item t).fajr_jamaat = item.fajr_jamaat ∧
      (toPayload item t).dhuhr_jamaat = item.dhuhr_jamaat ∧
      (toPayload item t).asr_jamaat = item.asr_jamaat ∧
      (toPayload item t).maghrib_jamaat = item.maghrib_jamaat ∧
      (toPayload item t).isha_jamaat = item.isha_jamaat) ∧
    coerceTime "9999" = some "99:99" ∧ matchesHHMM "99:99" = false := by
  refine ⟨?_, by decide, by decide⟩
  intro store coll item t
  exact ⟨lookupA_insertA_self store item.date (toPayload item t),
    lookupA_insertA_self coll item.date (toPayload item t),
    rfl, rfl, rfl, rfl, rfl, rfl, rfl, rfl, rfl, rfl, rfl⟩

/-! ### C4: order of the normalization steps -/

/-- C4 counterexample: `"615pm"` does not normalize to `"06:15"` — because
`am`/`pm` are stripped only after the digit-only colon-insertion test, the
suffixed numeral fails `isdigit` and the value is dropped entirely. -/
theorem coerce_615pm_yields_nothing :
    coerceTime "615pm" = none ∧ coerceTime "615pm" ≠ some "06:15" := by decide

/-! ### C5: row selection across upload formats -/

/-- C5 counterexample: on a JSON list of rows a non-matching target selects
no row at all, even though rows exist — the first-row fallback the claim
describes exists only on the CSV/XLSX paths (shown on the same input). -/
theorem json_list_has_no_fallback_row :
    findJsonRow "2024-03-01" jsonRowsEx = none ∧
    jsonRowsEx ≠ [] ∧
    pickRowCsv jsonRowsEx "2024-03-01" =
      some [("date", "2024-03-02"), ("fajr", "06:15")] := by decide

/-- C5 (amended): the CSV and XLSX branches select the first row whose
stripped, 10-character-truncated `date`/`day` value equals the target, else
the first row when any exist, else nothing; the JSON-list branch instead
selects the first row whose `date` field equals the target exactly — no
`day` key, no truncation, and no first-row fallback. -/
theorem row_selection (rows : List Row) (target : String) :
    pickRowCsv rows target = specSelect rows target ∧
    pickRowXlsx rows target = specSelect rows target ∧
    findJsonRow target rows = rows.find? (fun r => strDateField r = target) := by
  have hmatch : ∀ r, rowMatches target r =
      (match rowDateOrDay r with
       | none => false
       | some s => String.mk ((pyStrip s.data).take 10) == target) := by
    intro r
    unfold rowMatches
    cases hr : rowDateOrDay r with
    | none => rfl
    | some s =>
        by_cases hs : s = ""
        · subst hs
          rfl
        · simp [hs]
  have hfind : ∀ l : List Row, findMatchRow target l =
      l.find? (fun r =>
        match rowDateOrDay r with
        | none => false
        | some s => String.mk ((pyStrip s.data).take 10) == target) := by
    intro l
    induction l with
    | nil => rfl
    | cons r rest ih =>
        rw [findMatchRow, hmatch r, List.find?_cons]
        cases hmc : (match rowDateOrDay r with
          | none => false
          | some s => String.mk ((pyStrip s.data).take 10) == target) <;>
          simp [hmc, ih]
  have hjson : findJsonRow target rows =
      rows.find? (fun r => strDateField r = target) := by
    induction rows with
    | nil => rfl
    | cons r rest ih =>
        by_cases hr : strDateField r = target
        · simp [findJsonRow, List.find?_cons, hr]
        · simp [findJsonRow, List.find?_cons, hr, ih]
  exact ⟨by rw [pickRowCsv, specSelect, hfind rows],
         by rw [pickRowXlsx, specSelect, hfind rows], hjson⟩

/-! ### C6: the "nothing extractable" rejection -/

/-- C6: a sync run that extracted none of the eleven prayer fields is
rejected with the distinct "nothing extractable" condition and writes
nothing to either backend even when commit is requested; with at least one
extracted field the run is accepted. -/
theorem sync_nothing_extractable (src : String) (extracted : Row)
    (target : String) (commit : Bool) (store coll : SalahStore) (t : String) :
    (hasAnyTimes extracted = false →
      ai_sync_tail_fb src extracted target commit store t =
        (store, .error nothingExtractableMsg) ∧
      ai_sync_tail_db src extracted target commit coll t =
        (coll, .error nothingExtractableMsg)) ∧
    (hasAnyTimes extracted = true →
      (ai_sync_tail_fb src extracted target commit store t).2 =
        .ok { status := "ok", source := src, committed := commit,
              data := syncRespData extracted } ∧
      (ai_sync_tail_db src extracted target commit coll t).2 =
        .ok { status := "ok", source := src, committed := commit,
              data := syncRespData extracted }) := by
  constructor
  · intro h
    constructor <;> simp [ai_sync_tail_fb, ai_sync_tail_db, h]
  · intro h
    constructor <;> simp [ai_sync_tail_fb, ai_sync_tail_db, h]

/-- Witness for `sync_nothing_extractable`: with `commit=True`, a row
carrying no time columns leaves both stores untouched and errors; a row with
one extracted field is accepted. -/
theorem sync_nothing_extractable_witness :
    (ai_sync_tail_fb "u.csv" [("date", "2024-03-01")] "2024-03-01" true [] "T" =
      ([], .error nothingExtractableMsg) ∧
     ai_sync_tail_db "u.csv" [("date", "2024-03-01")] "2024-03-01" true [] "T" =
      ([], .error nothingExtractableMsg)) ∧
    ((ai_sync_tail_fb "u.csv" [("date", "2024-03-01"), ("fajr", "06:15")]
        "2024-03-01" true [] "T").2 =
      .ok { status := "ok", source := "u.csv", committed := true,
            data := syncRespData [("date", "2024-03-01"), ("fajr", "06:15")] } ∧
     (ai_sync_tail_db "u.csv" [("date", "2024-03-01"), ("fajr", "06:15")]
        "2024-03-01" true [] "T").2 =
      .ok { status := "ok", source := "u.csv", committed := true,
            data := syncRespData [("date", "2024-03-01"), ("fajr", "06:15")] }) :=
  ⟨(sync_nothing_extractable "u.csv" [("date", "2024-03-01")] "2024-03-01"
      true [] [] "T").1 (by decide),
   (sync_nothing_extractable "u.csv" [("date", "2024-03-01"), ("fajr", "06:15")]
      "2024-03-01" true [] [] "T").2 (by decide)⟩

/-! ### C8: atomicity of the fallback store write -/

/-- C8: `_write_json` serializes into the temporary sibling and then renames
atomically, so a reader of the destination at any intermediate step — and
after a crash that stops the trace anywhere — observes the fully-old or the
fully-new document, never a partial one; before the rename the old document
is still intact, and after it the new one is in place. -/
theorem write_json_atomic (fs : FS) (content : String) :
    (∀ step, readDest (writeStateAt fs content step) = fs.dest ∨
      readDest (writeStateAt fs content step) = some content) ∧
    (∀ step, step ≠ WriteStep.done →
      readDest (writeStateAt fs content step) = fs.dest) ∧
    readDest (_write_json fs content) = some content := by
  refine ⟨?_, ?_, rfl⟩
  · intro step
    cases step with
    | start => exact Or.inl rfl
    | writing n => exact Or.inl rfl
    | done => exact Or.inr rfl
  · intro step h
    cases step with
    | start => rfl
    | writing n => rfl
    | done => exact absurd rfl h

/-- Witness for `write_json_atomic`: mid-write (two characters flushed into
the temp file) a reader still sees the old document. -/
theorem write_json_atomic_witness :
    readDest (writeStateAt { dest := some "old", tmp := none } "new"
      (WriteStep.writing 2)) = FS.dest { dest := some "old", tmp := none } :=
  (write_json_atomic { dest := some "old", tmp := none } "new").2.1
    (WriteStep.writing 2) (by decide)

/-! ### C9: CSV delimiter sniffing policy -/

/-- C9 counterexample: on a file with a non-empty sample containing no
recognizable delimiter, sniffing fails and the endpoint surfaces the
parse-failure error — it does not default to comma-delimited parsing. -/
theorem sniff_failure_is_an_error :
    ai_sync_csv_dialect "fajr\n0615\n" =
      .error "Failed to parse source file: Could not determine delimiter" ∧
    ∀ c, ai_sync_csv_dialect "fajr\n0615\n" ≠ .ok c := by
  have h : ai_sync_csv_dialect "fajr\n0615\n" =
      .error "Failed to parse source file: Could not determine delimiter" := rfl
  refine ⟨h, ?_⟩
  intro c hc
  rw [h] at hc
  exact Except.noConfusion hc

/-- C9 (amended): the delimiter is sniffed from a 2048-byte sample; the
comma-delimited default applies only when that sample is empty, and a
sniffing failure on non-empty content surfaces as the sync endpoint's
parse-failure error rather than a comma default. -/
theorem csv_sniffing_policy (content : String) :
    (content.data.take 2048 = [] → parseCsvDialect content = .ok ',') ∧
    (∀ e, sniffDelim (content.data.take 2048) = .error e →
      content.data.take 2048 ≠ [] →
      ai_sync_csv_dialect content =
        .error ("Failed to parse source file: " ++ e)) := by
  constructor
  · intro h
    simp [parseCsvDialect, chooseDialect, h]
  · intro e h2 h1
    simp [ai_sync_csv_dialect, parseCsvDialect, chooseDialect, h1, h2]

/-- Witness for `csv_sniffing_policy` at a delimiter-free upload. -/
theorem csv_sniffing_policy_witness :
    ai_sync_csv_dialect "fajr\n0615\n" =
      .error ("Failed to parse source file: " ++ "Could not determine delimiter") :=
  (csv_sniffing_policy "fajr\n0615\n").2 "Could not determine delimiter"
    rfl (by decide)

/-! ### C10: unparseable window bounds in the fallback filter -/

/-- C10: in fallback mode an announcement whose stored `start_at` or
`end_at` string fails to parse is treated as unbounded on both sides — the
exception escapes the `try` block wherever it occurs and both window checks
are set to pass — so (being active) the record appears in the list-active
output at every evaluation time. -/
theorem unparseable_window_always_visible (items : List AnnRec) (now : Nat)
    (it : AnnRec) (hmem : it ∈ items) (hact : it.active.getD true = true)
    (hbad : (∃ s, it.start_at = some s ∧ parseTs s = none) ∨
      (∃ s, it.end_at = some s ∧ parseTs s = none)) :
    it ∈ get_active_announcements_fb items now := by
  have hcond : annCondFb now it = true := by
    rcases hbad with ⟨s, hs, hp⟩ | ⟨s, hs, hp⟩
    · simp [annCondFb, startEndOk, hact, hs, hp]
    · cases hsa : it.start_at with
      | none => simp [annCondFb, startEndOk, hact, hsa, hs, hp]
      | some s0 =>
          cases hps : parseTs s0 with
          | none => simp [annCondFb, startEndOk, hact, hsa, hps]
          | some v => simp [annCondFb, startEndOk, hact, hsa, hps, hs, hp]
  rw [get_active_announcements_fb, mem_sortDesc]
  exact List.mem_filter.2 ⟨hmem, hcond⟩

/-- Witness for `unparseable_window_always_visible` at two concrete stores:
one record with an unparseable `start_at`, and one whose `start_at` parses
(and even lies in the future at evaluation time 0) but whose `end_at` does
not parse. -/
theorem unparseable_window_always_visible_witness :
    ghostAnn ∈ get_active_announcements_fb [ghostAnn] 0 ∧
    ghostAnn2 ∈ get_active_announcements_fb [ghostAnn2] 0 :=
  ⟨unparseable_window_always_visible [ghostAnn] 0 ghostAnn (by decide)
     (by decide) (Or.inl ⟨"soon", by decide, by decide⟩),
   unparseable_window_always_visible [ghostAnn2] 0 ghostAnn2 (by decide)
     (by decide) (Or.inr ⟨"whenever", by decide, by decide⟩)⟩

/-! ### C7: list-active announcement semantics -/

theorem annCond_eq_of_wf (now : Nat) (it : AnnRec) (h : annWF it = true) :
    annCondFb now it = annCondDb now it := by
  unfold annWF at h
  simp only [Bool.and_eq_true] at h
  obtain ⟨⟨⟨hact, hprio⟩, hstart⟩, hend⟩ := h
  rw [Option.isSome_iff_exists] at hact
  obtain ⟨a, ha⟩ := hact
  cases a with
  | false => simp [annCondFb, annCondDb, ha]
  | true =>
      cases hsa : it.start_at with
      | none =>
          cases hea : it.end_at with
          | none => simp [annCondFb, annCondDb, startEndOk, ha, hsa, hea]
          | some se =>
              simp only [hea] at hend
              rw [Option.isSome_iff_exists] at hend
              obtain ⟨ve, hve⟩ := hend
              simp [annCondFb, annCondDb, startEndOk, ha, hsa, hea, hve]
      | some ss =>
          simp only [hsa] at hstart
          rw [Option.isSome_iff_exists] at hstart
          obtain ⟨vs, hvs⟩ := hstart
          cases hea : it.end_at with
          | none => simp [annCondFb, annCondDb, startEndOk, ha, hsa, hea, hvs]
          | some se =>
              simp only [hea] at hend
              rw [Option.isSome_iff_exists] at hend
              obtain ⟨ve, hve⟩ := hend
              simp [annCondFb, annCondDb, startEndOk, ha, hsa, hea, hvs, hve]

theorem list_active_fb_eq_db (items : List AnnRec) (now : Nat)
    (hwf : ∀ it ∈ items, annWF it = true) :
    get_active_announcements_fb items now = get_active_announcements_db items now := by
  unfold get_active_announcements_fb get_active_announcements_db
  have hfil : items.filter (annCondFb now) = items.filter (annCondDb now) :=
    List.filter_congr (fun it hit => by rw [annCond_eq_of_wf now it (hwf it hit)])
  rw [hfil]

theorem annCondDb_iff (now : Nat) (it : AnnRec) :
    annCondDb now it = true ↔
      (it.active = some true ∧
       (match it.start_at with
        | none => True
        | some s => ∃ v, parseTs s = some v ∧ v ≤ now) ∧
       (match it.end_at with
        | none => True
        | some s => ∃ v, parseTs s = some v ∧ now ≤ v)) := by
  cases hsa : it.start_at with
  | none =>
      cases hea : it.end_at with
      | none => simp [annCondDb, hsa, hea]
      | some se =>
          cases hpe : parseTs se with
          | none => simp [annCondDb, hsa, hea, hpe]
          | some ve => simp [annCondDb, hsa, hea, hpe]
  | some ss =>
      cases hps : parseTs ss with
      | none =>
          cases hea : it.end_at with
          | none => simp [annCondDb, hsa, hea, hps]
          | some se => simp [annCondDb, hsa, hea, hps]
      | some vs =>
          cases hea : it.end_at with
          | none => simp [annCondDb, hsa, hea, hps]
          | some se =>
              cases hpe : parseTs se with
              | none => simp [annCondDb, hsa, hea, hps, hpe]
              | some ve =>
                  simp only [annCondDb, hsa, hea, hps, hpe]
                  simp [and_assoc]

/-- C7: at evaluation time `now`, over well-formed stored records, the
fallback list-active computation equals the database query; its members are
exactly the active records whose (absent-or-satisfied) window contains `now`;
its order is non-increasing by priority; and equal priorities keep their
original storage order (stability). -/
theorem list_active_semantics (items : List AnnRec) (now : Nat)
    (hwf : ∀ it ∈ items, annWF it = true) :
    get_active_announcements_fb items now = get_active_announcements_db items now ∧
    (∀ it, it ∈ get_active_announcements_fb items now ↔
      (it ∈ items ∧ it.active = some true ∧
       (match it.start_at with
        | none => True
        | some s => ∃ v, parseTs s = some v ∧ v ≤ now) ∧
       (match it.end_at with
        | none => True
        | some s => ∃ v, parseTs s = some v ∧ now ≤ v))) ∧
    (get_active_announcements_fb items now).Pairwise
      (fun a b => annPrio b ≤ annPrio a) ∧
    (∀ p, (get_active_announcements_fb items now).filter
        (fun it => annPrio it = p) =
      (items.filter (annCondFb now)).filter (fun it => annPrio it = p)) := by
  have heq := list_active_fb_eq_db items now hwf
  refine ⟨heq, ?_, ?_, ?_⟩
  · intro it
    rw [heq]
    unfold get_active_announcements_db
    rw [mem_sortDesc, List.mem_filter, annCondDb_iff]
  · exact sorted_sortDesc annPrio _
  · intro p
    exact filter_sortDesc annPrio _ p

/-- Witness for `list_active_semantics` at a concrete store. -/
theorem list_active_semantics_witness :
    get_active_announcements_fb [annC, annA, annB] 7 =
      get_active_announcements_db [annC, annA, annB] 7 :=
  (list_active_semantics [annC, annA, annB] 7 (by decide)).1

/-! ### C1: structural response-shape consistency across modes -/

theorem map_salahKeys_eq (l : List SalahPayload) :
    l.map salahKeys = List.replicate l.length (salahKeys emptySalah) := by
  induction l with
  | nil => rfl
  | cons p ps ih => simp [List.replicate, ih, salahKeys]

theorem length_listRecentFb (store : SalahStore) :
    (listRecentFb store).length = min 30 store.length := by
  unfold listRecentFb
  rw [List.length_map, List.length_take, length_sortDesc]

theorem length_listRecentDb (coll : SalahStore) :
    (listRecentDb coll).length = min 30 coll.length := by
  unfold listRecentDb
  rw [List.length_take, length_sortDesc, List.length_map]

/-- C1 counterexample: at a concrete input the upsert and create responses
carry different key sets in the two modes — the fallback branch adds a
`fallback` key — so the claimed shape identity over all six operations
fails. -/
theorem write_response_shapes_differ :
    (upsert_salah_fb [] cexSalah "T").2.keys ≠
      (upsert_salah_db [] cexSalah "T").2.keys ∧
    create_announcement_fb [] cexAnn "T" =
      .ok ([annToRec cexAnn "T"],
        { status := "ok", id := 1, fallback := true }) ∧
    CreateRespFb.keys { status := "ok", id := 1, fallback := true } ≠
      (create_announcement_db [] cexAnn "T" "id1").2.keys :=
  ⟨by decide, rfl, by decide⟩

/-- C1 (amended): over corresponding stores, the read operations — get-today,
get-by-date (single and list-recent), and list-active — produce structurally
identical response shapes in both modes.  The upsert response carries an
extra `fallback` key in fallback mode; every *successful* fallback create
response likewise carries the extra `fallback` key, but a fallback create of
an announcement with a time bound present never succeeds — `json.dump`
raises `TypeError` on the `datetime` bound (an unhandled 500) while the
database branch succeeds.  Fallback asset-listing entries lack the
`created_at` key that database asset documents carry. -/
theorem response_shapes (store : SalahStore) (d today : String)
    (item : SalahTime) (t : String) (anns : List AnnRec) (now : Nat)
    (ann : Announcement) (newId : String) (files : List String)
    (docs : List AssetDocDb) (limit : Nat)
    (hwf : ∀ it ∈ anns, annWF it = true) :
    salahRespShape (get_salah_by_date_fb store (some d)) =
      salahRespShape (get_salah_by_date_db store (some d)) ∧
    salahRespShape (get_salah_by_date_fb store none) =
      salahRespShape (get_salah_by_date_db store none) ∧
    salahRespShape (get_today_salah_fb store today) =
      salahRespShape (get_today_salah_db store today) ∧
    (get_active_announcements_fb anns now).map annKeys =
      (get_active_announcements_db anns now).map annKeys ∧
    (upsert_salah_fb store item t).2.keys =
      (upsert_salah_db store item t).2.keys ++ ["fallback"] ∧
    (∀ res, create_announcement_fb anns ann t = .ok res →
      res.2.keys = (create_announcement_db anns ann t newId).2.keys ++ ["fallback"]) ∧
    (ann.start_at.isSome ∨ ann.end_at.isSome →
      create_announcement_fb anns ann t = .error jsonDumpTypeErrorMsg) ∧
    (∀ a ∈ list_assets_fb files limit,
      AssetItemFb.keys a = ["filename", "content_type", "path"]) ∧
    (∀ doc ∈ list_assets_db docs limit,
      AssetDocDb.keys doc = ["filename", "content_type", "path", "created_at"]) := by
  refine ⟨?_, ?_, ?_, ?_, rfl, ?_, ?_, ?_, ?_⟩
  · unfold get_salah_by_date_fb get_salah_by_date_db
    cases lookupA store d <;> rfl
  · show KeysShape.many ((listRecentFb store).map salahKeys) =
      KeysShape.many ((listRecentDb store).map salahKeys)
    rw [map_salahKeys_eq, map_salahKeys_eq, length_listRecentFb, length_listRecentDb]
  · unfold get_today_salah_fb get_today_salah_db
    cases lookupA store today <;> rfl
  · rw [list_active_fb_eq_db anns now hwf]
  · intro res hres
    unfold create_announcement_fb at hres
    by_cases hb : ann.start_at.isSome ∨ ann.end_at.isSome
    · rw [if_pos hb] at hres
      exact Except.noConfusion hres
    · rw [if_neg hb] at hres
      injection hres with hres
      rw [← hres]
      rfl
  · intro hb
    unfold create_announcement_fb
    rw [if_pos hb]
  · intro a ha
    rfl
  · intro doc hd
    rfl

/-- Witness for `response_shapes` at concrete stores: the list-active
conjunct with its well-formedness hypothesis discharged, and the fallback
create serialization-failure conjunct with its bound-present hypothesis
discharged. -/
theorem response_shapes_witness :
    ((get_active_announcements_fb [annA] 0).map annKeys =
      (get_active_announcements_db [annA] 0).map annKeys) ∧
    create_announcement_fb [annA] windowedAnn "T" = .error jsonDumpTypeErrorMsg :=
  ⟨(response_shapes [] "2024-03-01" "2024-03-01" { date := "2024-03-01" } "T"
      [annA] 0 { message := "hello" } "id1" [] [] 20 (by decide)).2.2.2.1,
   (response_shapes [] "2024-03-01" "2024-03-01" { date := "2024-03-01" } "T"
      [annA] 0 windowedAnn "id1" [] [] 20 (by decide)).2.2.2.2.2.2.1 (by decide)⟩

/-! ### C4 (continued): the general normalization lemmas -/

theorem digitChar_facts (c : Char) (h : DigitChar c) :
    Char.toLower c = c ∧ c.isWhitespace = false ∧ c.isDigit = true ∧
    c ≠ ':' ∧ c ≠ '.' ∧ c ≠ ' ' ∧ c ≠ 'a' ∧ c ≠ 'p' ∧ c ≠ '+' ∧ c ≠ '-' ∧ c ≠ 'm' := by
  unfold DigitChar at h
  simp only [List.mem_cons, List.not_mem_nil, or_false] at h
  rcases h with rfl | rfl | rfl | rfl | rfl | rfl | rfl | rfl | rfl | rfl <;> decide

theorem dropWhile_eq_self_of (p : Char → Bool) (l : List Char)
    (h : ∀ c ∈ l, p c = false) : l.dropWhile p = l := by
  cases l with
  | nil => rfl
  | cons c cs => simp [List.dropWhile_cons, h c (List.mem_cons_self c cs)]

theorem pyStrip_eq_self (l : List Char) (h : ∀ c ∈ l, c.isWhitespace = false) :
    pyStrip l = l := by
  unfold pyStrip
  rw [dropWhile_eq_self_of _ _ h,
      dropWhile_eq_self_of _ _ (fun c hc => h c (List.mem_reverse.1 hc)),
      List.reverse_reverse]

theorem pyLower_eq_self (l : List Char) (h : ∀ c ∈ l, Char.toLower c = c) :
    pyLower l = l := by
  induction l with
  | nil => rfl
  | cons c cs ih =>
      have hc := h c (List.mem_cons_self c cs)
      have ih' := ih (fun d hd => h d (List.mem_cons_of_mem c hd))
      simp only [pyLower, List.map_cons] at ih' ⊢
      rw [hc, ih']

theorem replaceAllAux_of_not_mem (p0 : Char) (ps r : List Char) (fuel : Nat) :
    ∀ (l : List Char), p0 ∉ l → replaceAllAux p0 ps r fuel l = l := by
  induction fuel with
  | zero =>
      intro l h
      cases l <;> rfl
  | succ n ih =>
      intro l h
      cases l with
      | nil => rfl
      | cons c cs =>
          have hc : (p0 == c) = false := by
            simp only [beq_eq_false_iff_ne, ne_eq]
            intro he
            exact h (he ▸ List.mem_cons_self c cs)
          have hpre : (p0 :: ps).isPrefixOf (c :: cs) = false := by
            show (p0 == c && ps.isPrefixOf cs) = false
            rw [hc, Bool.false_and]
          simp only [replaceAllAux, hpre, Bool.false_eq_true, if_false]
          rw [ih cs (fun hm => h (List.mem_cons_of_mem c hm))]

theorem replaceAll_of_not_mem (p0 : Char) (ps r : List Char) (l : List Char)
    (h : p0 ∉ l) : replaceAll p0 ps r l = l :=
  replaceAllAux_of_not_mem p0 ps r l.length l h

theorem replaceAllAux_strip_suffix (x y : Char) :
    ∀ (ds : List Char) (fuel : Nat), (ds ++ [x, y]).length ≤ fuel → x ∉ ds →
      replaceAllAux x [y] [] fuel (ds ++ [x, y]) = ds := by
  intro ds
  induction ds with
  | nil =>
      intro fuel hf hx
      cases fuel with
      | zero => simp at hf
      | succ n =>
          have hpre : ([x, y]).isPrefixOf ([x, y]) = true := by
            show (x == x && (y == y && true)) = true
            simp
          show replaceAllAux x [y] [] (n + 1) ([x, y]) = []
          simp [replaceAllAux, hpre]
  | cons c cs ih =>
      intro fuel hf hx
      cases fuel with
      | zero =>
          exfalso
          simp only [List.length_append, List.length_cons, Nat.le_zero] at hf
          omega
      | succ n =>
          have hc : (x == c) = false := by
            simp only [beq_eq_false_iff_ne, ne_eq]
            intro he
            exact hx (he ▸ List.mem_cons_self c cs)
          have hf2 : (cs ++ [x, y]).length ≤ n := by
            simp only [List.cons_append, List.length_cons] at hf
            omega
          have hx2 : x ∉ cs := fun hm => hx (List.mem_cons_of_mem c hm)
          have hpre : ([x, y]).isPrefixOf (c :: (cs ++ [x, y])) = false := by
            show (x == c && _) = false
            rw [hc, Bool.false_and]
          show replaceAllAux x [y] [] (n + 1) (c :: (cs ++ [x, y])) = c :: cs
          simp only [replaceAllAux, hpre, Bool.false_eq_true, if_false]
          rw [ih n hf2 hx2]

theorem replaceAll_strip_suffix (x y : Char) (ds : List Char) (hx : x ∉ ds) :
    replaceAll x [y] [] (ds ++ [x, y]) = ds :=
  replaceAllAux_strip_suffix x y ds (ds ++ [x, y]).length le_rfl hx

theorem splitOnChar_not_mem (sep : Char) (b : List Char) (h : sep ∉ b) :
    splitOnChar sep b = [b] := by
  induction b with
  | nil => rfl
  | cons c cs ih =>
      have hc : ¬ (c = sep) := by
        intro he
        exact h (he ▸ List.mem_cons_self c cs)
      simp only [splitOnChar, if_neg hc]
      rw [ih (fun hm => h (List.mem_cons_of_mem c hm))]

theorem splitOnChar_append (sep : Char) (a b : List Char)
    (ha : sep ∉ a) (hb : sep ∉ b) :
    splitOnChar sep (a ++ sep :: b) = [a, b] := by
  induction a with
  | nil =>
      show splitOnChar sep (sep :: b) = [[], b]
      simp [splitOnChar, splitOnChar_not_mem sep b hb]
  | cons c cs ih =>
      have hc : ¬ (c = sep) := by
        intro he
        exact ha (he ▸ List.mem_cons_self c cs)
      have ih2 := ih (fun hm => ha (List.mem_cons_of_mem c hm))
      show splitOnChar sep (c :: (cs ++ sep :: b)) = [c :: cs, b]
      simp only [splitOnChar, if_neg hc, ih2]

theorem pyInt_digits (ds : List Char) (hne : ds ≠ [])
    (h : ∀ c ∈ ds, DigitChar c) : pyInt ds = some (digitsVal ds : Int) := by
  cases ds with
  | nil => exact absurd rfl hne
  | cons c cs =>
      have hc := digitChar_facts c (h c (List.mem_cons_self c cs))
      have hall : (c :: cs).all Char.isDigit = true := by
        rw [List.all_eq_true]
        intro d hd
        exact (digitChar_facts d (h d hd)).2.2.1
      simp only [pyInt, if_neg hc.2.2.2.2.2.2.2.2.1, if_neg hc.2.2.2.2.2.2.2.2.2.1]
      rw [if_pos hall]

theorem contains_true_of_mem (x : Char) (l : List Char) (h : x ∈ l) :
    l.contains x = true := by
  simpa using h

theorem contains_false_of_not_mem (x : Char) (l : List Char) (h : x ∉ l) :
    l.contains x = false := by
  simpa using h

theorem coerceTimeL_digits (ds : List Char) (hd : ∀ c ∈ ds, DigitChar c)
    (hlen3 : 3 ≤ ds.length) (hlen4 : ds.length ≤ 4) :
    coerceTimeL ds =
      some (fmt02 (digitsVal (ds.take (ds.length - 2)) : Int) ++
        ':' :: fmt02 (digitsVal (ds.drop (ds.length - 2)) : Int)) := by
  have hnw : ∀ c ∈ ds, c.isWhitespace = false :=
    fun c hc => (digitChar_facts c (hd c hc)).2.1
  have hlow : ∀ c ∈ ds, Char.toLower c = c :=
    fun c hc => (digitChar_facts c (hd c hc)).1
  have hdot : '.' ∉ ds :=
    fun hm => absurd rfl (digitChar_facts '.' (hd '.' hm)).2.2.2.2.1
  have hsp : ' ' ∉ ds :=
    fun hm => absurd rfl (digitChar_facts ' ' (hd ' ' hm)).2.2.2.2.2.1
  have hcolon : ':' ∉ ds :=
    fun hm => absurd rfl (digitChar_facts ':' (hd ':' hm)).2.2.2.1
  have htop : replaceAll ' ' [] [] (replaceAll '.' [] [':'] (pyLower (pyStrip ds))) = ds := by
    rw [pyStrip_eq_self ds hnw, pyLower_eq_self ds hlow,
        replaceAll_of_not_mem '.' [] [':'] ds hdot,
        replaceAll_of_not_mem ' ' [] [] ds hsp]
  have hne : ds ≠ [] := by
    intro he
    rw [he] at hlen3
    simp at hlen3
  have hall : ds.all Char.isDigit = true := by
    rw [List.all_eq_true]
    intro c hc
    exact (digitChar_facts c (hd c hc)).2.2.1
  have hcond : ¬ ds.contains ':' = true ∧ ds ≠ [] ∧ ds.all Char.isDigit = true ∧
      3 ≤ ds.length ∧ ds.length ≤ 4 := by
    refine ⟨?_, hne, hall, hlen3, hlen4⟩
    rw [contains_false_of_not_mem ':' ds hcolon]
    simp
  have hamem : ∀ c ∈ ds.take (ds.length - 2), DigitChar c :=
    fun c hc => hd c (List.take_subset _ _ hc)
  have hbmem : ∀ c ∈ ds.drop (ds.length - 2), DigitChar c :=
    fun c hc => hd c (List.drop_subset _ _ hc)
  have halen : (ds.take (ds.length - 2)).length = ds.length - 2 := by
    rw [List.length_take]
    omega
  have hblen : (ds.drop (ds.length - 2)).length = 2 := by
    rw [List.length_drop]
    omega
  have hamemT : ∀ c ∈ ds.take (ds.length - 2) ++ ':' :: ds.drop (ds.length - 2),
      DigitChar c ∨ c = ':' := by
    intro c hc
    rcases List.mem_append.1 hc with hc1 | hc2
    · exact Or.inl (hamem c hc1)
    · rcases List.mem_cons.1 hc2 with rfl | hc3
      · exact Or.inr rfl
      · exact Or.inl (hbmem c hc3)
  have hrepa : replaceAll 'a' ['m'] []
      (ds.take (ds.length - 2) ++ ':' :: ds.drop (ds.length - 2)) =
      ds.take (ds.length - 2) ++ ':' :: ds.drop (ds.length - 2) := by
    refine replaceAll_of_not_mem _ _ _ _ ?_
    intro hm
    rcases hamemT 'a' hm with h1 | h1
    · exact absurd rfl (digitChar_facts 'a' h1).2.2.2.2.2.2.1
    · exact absurd h1 (by decide)
  have hrepp : replaceAll 'p' ['m'] []
      (ds.take (ds.length - 2) ++ ':' :: ds.drop (ds.length - 2)) =
      ds.take (ds.length - 2) ++ ':' :: ds.drop (ds.length - 2) := by
    refine replaceAll_of_not_mem _ _ _ _ ?_
    intro hm
    rcases hamemT 'p' hm with h1 | h1
    · exact absurd rfl (digitChar_facts 'p' h1).2.2.2.2.2.2.2.1
    · exact absurd h1 (by decide)
  have hcol : (ds.take (ds.length - 2) ++ ':' :: ds.drop (ds.length - 2)).contains ':' =
      true :=
    contains_true_of_mem ':' _ (List.mem_append.2 (Or.inr (List.mem_cons_self _ _)))
  have hsplit : splitOnChar ':' (ds.take (ds.length - 2) ++ ':' :: ds.drop (ds.length - 2)) =
      [ds.take (ds.length - 2), ds.drop (ds.length - 2)] :=
    splitOnChar_append ':' _ _
      (fun hm => absurd rfl (digitChar_facts ':' (hamem ':' hm)).2.2.2.1)
      (fun hm => absurd rfl (digitChar_facts ':' (hbmem ':' hm)).2.2.2.1)
  have hane : ds.take (ds.length - 2) ≠ [] := by
    intro he
    rw [he] at halen
    simp at halen
    omega
  have hpya : pyInt (ds.take (ds.length - 2)) =
      some (digitsVal (ds.take (ds.length - 2)) : Int) :=
    pyInt_digits _ hane hamem
  have hbtake : (ds.drop (ds.length - 2)).take 2 = ds.drop (ds.length - 2) :=
    List.take_of_length_le (le_of_eq hblen)
  have hpyb : pyInt ((ds.drop (ds.length - 2)).take 2) =
      some (digitsVal (ds.drop (ds.length - 2)) : Int) := by
    rw [hbtake]
    refine pyInt_digits _ ?_ hbmem
    intro he
    rw [he] at hblen
    simp at hblen
  simp only [coerceTimeL, htop]
  rw [if_pos hcond]
  simp only [hrepa, hrepp, hcol, if_true, hsplit, hpya, hpyb]

theorem coerceTimeL_pm_suffix (ds : List Char) (hd : ∀ c ∈ ds, DigitChar c) :
    coerceTimeL (ds ++ ['p', 'm']) = none := by
  have hnw : ∀ c ∈ ds ++ ['p', 'm'], c.isWhitespace = false := by
    intro c hc
    rcases List.mem_append.1 hc with h1 | h1
    · exact (digitChar_facts c (hd c h1)).2.1
    · rcases List.mem_cons.1 h1 with rfl | h2
      · decide
      · rcases List.mem_singleton.1 h2 with rfl
        decide
  have hlow : ∀ c ∈ ds ++ ['p', 'm'], Char.toLower c = c := by
    intro c hc
    rcases List.mem_append.1 hc with h1 | h1
    · exact (digitChar_facts c (hd c h1)).1
    · rcases List.mem_cons.1 h1 with rfl | h2
      · decide
      · rcases List.mem_singleton.1 h2 with rfl
        decide
  have hdot : '.' ∉ ds ++ ['p', 'm'] := by
    intro hm
    rcases List.mem_append.1 hm with h1 | h1
    · exact absurd rfl (digitChar_facts '.' (hd '.' h1)).2.2.2.2.1
    · simp at h1
  have hsp : ' ' ∉ ds ++ ['p', 'm'] := by
    intro hm
    rcases List.mem_append.1 hm with h1 | h1
    · exact absurd rfl (digitChar_facts ' ' (hd ' ' h1)).2.2.2.2.2.1
    · simp at h1
  have htop : replaceAll ' ' [] []
      (replaceAll '.' [] [':'] (pyLower (pyStrip (ds ++ ['p', 'm'])))) =
      ds ++ ['p', 'm'] := by
    rw [pyStrip_eq_self _ hnw, pyLower_eq_self _ hlow,
        replaceAll_of_not_mem '.' [] [':'] _ hdot,
        replaceAll_of_not_mem ' ' [] [] _ hsp]
  have hnc : ¬ (¬ (ds ++ ['p', 'm']).contains ':' = true ∧ ds ++ ['p', 'm'] ≠ [] ∧
      (ds ++ ['p', 'm']).all Char.isDigit = true ∧
      3 ≤ (ds ++ ['p', 'm']).length ∧ (ds ++ ['p', 'm']).length ≤ 4) := by
    rintro ⟨-, -, hall, -, -⟩
    rw [List.all_eq_true] at hall
    have hp : 'p' ∈ ds ++ ['p', 'm'] :=
      List.mem_append.2 (Or.inr (List.mem_cons_self _ _))
    have := hall 'p' hp
    simp at this
  have hpnotin : 'p' ∉ ds :=
    fun hm => absurd rfl (digitChar_facts 'p' (hd 'p' hm)).2.2.2.2.2.2.2.1
  have hanotin : 'a' ∉ ds ++ ['p', 'm'] := by
    intro hm
    rcases List.mem_append.1 hm with h1 | h1
    · exact absurd rfl (digitChar_facts 'a' (hd 'a' h1)).2.2.2.2.2.2.1
    · simp at h1
  have hs1 : replaceAll 'a' ['m'] [] (ds ++ ['p', 'm']) = ds ++ ['p', 'm'] :=
    replaceAll_of_not_mem _ _ _ _ hanotin
  have hs2 : replaceAll 'p' ['m'] [] (ds ++ ['p', 'm']) = ds :=
    replaceAll_strip_suffix 'p' 'm' ds hpnotin
  have hcol : ds.contains ':' = false :=
    contains_false_of_not_mem ':' ds
      (fun hm => absurd rfl (digitChar_facts ':' (hd ':' hm)).2.2.2.1)
  simp only [coerceTimeL, htop]
  rw [if_neg hnc]
  simp only [hs1, hs2, hcol, Bool.false_eq_true, if_false]

theorem coerceTimeL_am_suffix (ds : List Char) (hd : ∀ c ∈ ds, DigitChar c) :
    coerceTimeL (ds ++ ['a', 'm']) = none := by
  have hnw : ∀ c ∈ ds ++ ['a', 'm'], c.isWhitespace = false := by
    intro c hc
    rcases List.mem_append.1 hc with h1 | h1
    · exact (digitChar_facts c (hd c h1)).2.1
    · rcases List.mem_cons.1 h1 with rfl | h2
      · decide
      · rcases List.mem_singleton.1 h2 with rfl
        decide
  have hlow : ∀ c ∈ ds ++ ['a', 'm'], Char.toLower c = c := by
    intro c hc
    rcases List.mem_append.1 hc with h1 | h1
    · exact (digitChar_facts c (hd c h1)).1
    · rcases List.mem_cons.1 h1 with rfl | h2
      · decide
      · rcases List.mem_singleton.1 h2 with rfl
        decide
  have hdot : '.' ∉ ds ++ ['a', 'm'] := by
    intro hm
    rcases List.mem_append.1 hm with h1 | h1
    · exact absurd rfl (digitChar_facts '.' (hd '.' h1)).2.2.2.2.1
    · simp at h1
  have hsp : ' ' ∉ ds ++ ['a', 'm'] := by
    intro hm
    rcases List.mem_append.1 hm with h1 | h1
    · exact absurd rfl (digitChar_facts ' ' (hd ' ' h1)).2.2.2.2.2.1
    · simp at h1
  have htop : replaceAll ' ' [] []
      (replaceAll '.' [] [':'] (pyLower (pyStrip (ds ++ ['a', 'm'])))) =
      ds ++ ['a', 'm'] := by
    rw [pyStrip_eq_self _ hnw, pyLower_eq_self _ hlow,
        replaceAll_of_not_mem '.' [] [':'] _ hdot,
        replaceAll_of_not_mem ' ' [] [] _ hsp]
  have hnc : ¬ (¬ (ds ++ ['a', 'm']).contains ':' = true ∧ ds ++ ['a', 'm'] ≠ [] ∧
      (ds ++ ['a', 'm']).all Char.isDigit = true ∧
      3 ≤ (ds ++ ['a', 'm']).length ∧ (ds ++ ['a', 'm']).length ≤ 4) := by
    rintro ⟨-, -, hall, -, -⟩
    rw [List.all_eq_true] at hall
    have hp : 'a' ∈ ds ++ ['a', 'm'] :=
      List.mem_append.2 (Or.inr (List.mem_cons_self _ _))
    have := hall 'a' hp
    simp at this
  have hanotin : 'a' ∉ ds :=
    fun hm => absurd rfl (digitChar_facts 'a' (hd 'a' hm)).2.2.2.2.2.2.1
  have hpnotin : 'p' ∉ ds :=
    fun hm => absurd rfl (digitChar_facts 'p' (hd 'p' hm)).2.2.2.2.2.2.2.1
  have hs1 : replaceAll 'a' ['m'] [] (ds ++ ['a', 'm']) = ds :=
    replaceAll_strip_suffix 'a' 'm' ds hanotin
  have hs2 : replaceAll 'p' ['m'] [] ds = ds :=
    replaceAll_of_not_mem _ _ _ _ hpnotin
  have hcol : ds.contains ':' = false :=
    contains_false_of_not_mem ':' ds
      (fun hm => absurd rfl (digitChar_facts ':' (hd ':' hm)).2.2.2.1)
  simp only [coerceTimeL, htop]
  rw [if_neg hnc]
  simp only [hs1, hs2, hcol, Bool.false_eq_true, if_false]

/-- C4 (amended): normalization inserts the colon into a bare 3-4 digit
numeral BEFORE stripping `am`/`pm`, so a numeral still carrying a suffix
fails the all-digit test and yields no value, while the bare numeral yields
the zero-padded split, and a suffixed value that already contains a
separator (for example `"6.15pm"`) still normalizes. -/
theorem coerce_numeral_normalization (ds : List Char)
    (hd : ∀ c ∈ ds, DigitChar c) (hlen3 : 3 ≤ ds.length) (hlen4 : ds.length ≤ 4) :
    coerceTimeL (ds ++ ['p', 'm']) = none ∧
    coerceTimeL (ds ++ ['a', 'm']) = none ∧
    coerceTimeL ds =
      some (fmt02 (digitsVal (ds.take (ds.length - 2)) : Int) ++
        ':' :: fmt02 (digitsVal (ds.drop (ds.length - 2)) : Int)) ∧
    coerceTime "6.15pm" = some "06:15" ∧ coerceTime "615" = some "06:15" :=
  ⟨coerceTimeL_pm_suffix ds hd, coerceTimeL_am_suffix ds hd,
   coerceTimeL_digits ds hd hlen3 hlen4, by decide, by decide⟩

/-- Witness for `coerce_numeral_normalization` at the numeral 615. -/
theorem coerce_numeral_normalization_witness :
    coerceTimeL (['6', '1', '5'] ++ ['p', 'm']) = none ∧
    coerceTimeL (['6', '1', '5'] ++ ['a', 'm']) = none ∧
    coerceTimeL ['6', '1', '5'] =
      some (fmt02 (digitsVal ((['6', '1', '5'] : List Char).take
          ((['6', '1', '5'] : List Char).length - 2)) : Int) ++
        ':' :: fmt02 (digitsVal ((['6', '1', '5'] : List Char).drop
          ((['6', '1', '5'] : List Char).length - 2)) : Int)) ∧
    coerceTime "6.15pm" = some "06:15" ∧ coerceTime "615" = some "06:15" :=
  coerce_numeral_normalization ['6', '1', '5'] (by decide) (by decide) (by decide)

end MasjidDisplay

